import Mathlib

/-!
Verification of the agent-loop core of the hack-princeton repository
(backend/chat_query.py and backend/schemas.py).

The embedding models Python runtime values with the inductive type PyVal.
Python truthiness, str() conversion and dict operations are given explicit
counterparts.  The functions of chat_query.py and schemas.py are translated
one-to-one; external effects (the LLM call, the tool executor, and eval of
the serialized tool output) are passed in as function parameters.

Conventions:
  - a langchain Document is the PyVal constructor pydoc (id, page_content,
    metadata); its id is Optional[str], its metadata a dict;
  - a DocumentPayload value appearing inside the agent state is the
    constructor pypayload; the Lean structure DocumentPayload is the
    pydantic model itself;
  - datetime / date / time values carry their isoformat string, floats and
    foreign objects carry their textual form; no claim depends on the exact
    text of those carriers.
-/

/-- PyVal models the Python values flowing through chat_query.py:
primitives, datetime-family values, lists, tuples, dicts (assoc lists of
key-value pairs), langchain Documents, DocumentPayload instances and
arbitrary other objects. -/
inductive PyVal : Type where
  | str (s : String)
  | int (n : Int)
  | float (carrier : String)
  | bool (b : Bool)
  | none
  | datetime (iso : String)
  | date (iso : String)
  | time (iso : String)
  | list (xs : List PyVal)
  | tuple (xs : List PyVal)
  | dict (entries : List (PyVal × PyVal))
  | pydoc (id : Option String) (page_content : String)
      (metadata : List (PyVal × PyVal))
  | pypayload (id : Option String) (page_content : String)
      (metadata : List (String × PyVal))
  | obj (carrier : String)
deriving Repr

/-- Python truthiness (bool(v)): empty strings, 0, False, None and empty
collections are falsy; datetimes and generic objects are truthy.  The float
carrier is its repr, so the textual zero forms are the falsy ones. -/
def pyTruthy : PyVal → Bool
  | .str s => s ≠ ""
  | .int n => n ≠ 0
  | .float c => ¬ (c = "0.0" ∨ c = "-0.0" ∨ c = "0")
  | .bool b => b
  | .none => false
  | .datetime _ => true
  | .date _ => true
  | .time _ => true
  | .list xs => ¬ xs.isEmpty
  | .tuple xs => ¬ xs.isEmpty
  | .dict es => ¬ es.isEmpty
  | .pydoc _ _ _ => true
  | .pypayload _ _ _ => true
  | .obj _ => true

/-- Single-quote character, used by pyRepr for string values. -/
def pyQuote : String := String.singleton (Char.ofNat 39)

/-- Open-brace character as a string. -/
def pyObr : String := String.singleton (Char.ofNat 123)

/-- Close-brace character as a string. -/
def pyCbr : String := String.singleton (Char.ofNat 125)

/-- Python repr(v).  Strings gain quotes (escaping is not modelled), the
datetime family and floats render their carrier, containers recurse. -/
def pyRepr : PyVal → String
  | .str s => pyQuote ++ s ++ pyQuote
  | .int n => toString n
  | .float c => c
  | .bool b => if b then "True" else "False"
  | .none => "None"
  | .datetime iso => iso
  | .date iso => iso
  | .time iso => iso
  | .list xs =>
      "[" ++ String.intercalate ", " (xs.attach.map fun x => pyRepr x.1) ++ "]"
  | .tuple xs =>
      "(" ++ String.intercalate ", " (xs.attach.map fun x => pyRepr x.1) ++ ")"
  | .dict es =>
      pyObr ++ String.intercalate ", "
        (es.attach.map fun kv => pyRepr kv.1.1 ++ ": " ++ pyRepr kv.1.2)
      ++ pyCbr
  | .pydoc i pc md =>
      "Document(id=" ++ (match i with
        | some s => pyQuote ++ s ++ pyQuote
        | Option.none => "None")
      ++ ", metadata=" ++ pyObr ++ String.intercalate ", "
        (md.attach.map fun kv => pyRepr kv.1.1 ++ ": " ++ pyRepr kv.1.2)
      ++ pyCbr ++ ", page_content=" ++ pyQuote ++ pc ++ pyQuote ++ ")"
  | .pypayload i pc md =>
      "DocumentPayload(id=" ++ (match i with
        | some s => pyQuote ++ s ++ pyQuote
        | Option.none => "None")
      ++ ", page_content=" ++ pyQuote ++ pc ++ pyQuote
      ++ ", metadata=" ++ pyObr ++ String.intercalate ", "
        (md.attach.map fun kv => pyQuote ++ kv.1.1 ++ pyQuote ++ ": " ++ pyRepr kv.1.2)
      ++ pyCbr ++ ")"
  | .obj c => c
decreasing_by
  all_goals simp_wf
  all_goals try (have h1 := List.sizeOf_lt_of_mem x.2; omega)
  all_goals
    (obtain ⟨⟨k1, v1⟩, hmem⟩ := kv
     have h1 := List.sizeOf_lt_of_mem hmem
     simp_all
     omega)

/-- Python str(v): identical to repr except on plain strings, which render
verbatim. -/
def pyStr : PyVal → String
  | .str s => s
  | v => pyRepr v

/-- Value of the first entry of a Python dict whose key is the string k,
or the given default: models entries.get(k, default) for a string key. -/
def pyGetD (es : List (PyVal × PyVal)) (k : String) (default : PyVal) : PyVal :=
  match es.find? (fun kv => match kv.1 with
    | .str t => t = k
    | _ => false) with
  | some kv => kv.2
  | Option.none => default

/-- Membership test for a string key in a Python dict: models (k in d). -/
def pyHasKey (es : List (PyVal × PyVal)) (k : String) : Bool :=
  (es.find? (fun kv => match kv.1 with
    | .str t => t = k
    | _ => false)).isSome

/-- Lookup in a string-keyed dict (the sanitized metadata of a payload):
models metadata.get(k) returning None when absent; here Option. -/
def strGet (md : List (String × PyVal)) (k : String) : Option PyVal :=
  (md.find? (fun kv => kv.1 = k)).map (fun kv => kv.2)

/-- Lookup in a string-keyed dict with Python None as default:
models metadata.get(k). -/
def strGetD (md : List (String × PyVal)) (k : String) : PyVal :=
  match strGet md k with
  | some v => v
  | Option.none => .none

/-- Assignment md[k] = v on a string-keyed dict: replaces the value in
place when the key exists (keeping its position), appends otherwise. -/
def strSet (md : List (String × PyVal)) (k : String) (v : PyVal) :
    List (String × PyVal) :=
  if md.any (fun kv => kv.1 = k) then
    md.map (fun kv => if kv.1 = k then (k, v) else kv)
  else
    md ++ [(k, v)]

/-- Python x or y: x when truthy, else y. -/
def pyOr (x y : PyVal) : PyVal := if pyTruthy x then x else y

/-- Python equality of a dict key against the string k: only a str with
the same characters compares equal. -/
def isStrKey (k0 : PyVal) (k : String) : Bool :=
  match k0 with
  | .str t => t = k
  | _ => false

/-- Sanitized-value assignment on a dict with PyVal keys: models
d[PyVal.str k] = v with Python dict update semantics (value replaced in
place when the stringified key exists, appended otherwise). -/
def pyStrKeySet (es : List (PyVal × PyVal)) (k : String) (v : PyVal) :
    List (PyVal × PyVal) :=
  if es.any (fun kv => isStrKey kv.1 k) then
    es.map (fun kv => if isStrKey kv.1 k then (PyVal.str k, v) else kv)
  else
    es ++ [(PyVal.str k, v)]

/-- DocumentPayload._to_json_safe from backend/schemas.py: datetime, date
and time values become their isoformat string, lists and tuples are
sanitized elementwise, dicts are rebuilt with stringified keys and
sanitized values (a dict comprehension, hence Python dict insertion
semantics on key collisions), str / int / float / bool / None pass through
unchanged, and anything else becomes str(value). -/
def to_json_safe : PyVal → PyVal
  | .datetime iso => .str iso
  | .date iso => .str iso
  | .time iso => .str iso
  | .list xs => .list (xs.attach.map fun x => to_json_safe x.1)
  | .tuple xs => .tuple (xs.attach.map fun x => to_json_safe x.1)
  | .dict es =>
      .dict (es.attach.foldl
        (fun acc kv => pyStrKeySet acc (pyStr kv.1.1) (to_json_safe kv.1.2)) [])
  | .str s => .str s
  | .int n => .int n
  | .float c => .float c
  | .bool b => .bool b
  | .none => .none
  | v => .str (pyStr v)
decreasing_by
  all_goals simp_wf
  all_goals try (have h1 := List.sizeOf_lt_of_mem x.2; omega)
  all_goals
    (obtain ⟨⟨k1, v1⟩, hmem⟩ := kv
     have h1 := List.sizeOf_lt_of_mem hmem
     simp_all
     omega)

/-- Attach-free form of the dict comprehension inside to_json_safe, used to
state equations without the termination scaffolding. -/
def sanitizeDict (es : List (PyVal × PyVal)) : List (PyVal × PyVal) :=
  es.foldl (fun acc kv => pyStrKeySet acc (pyStr kv.1) (to_json_safe kv.2)) []

/-- String-keyed sanitization loop of DocumentPayload.from_document:
for key, val in document.metadata.items():
    metadata[str(key)] = _to_json_safe(val). -/
def sanitizeMeta (es : List (PyVal × PyVal)) : List (String × PyVal) :=
  es.foldl (fun acc kv => strSet acc (pyStr kv.1) (to_json_safe kv.2)) []

/-- Langchain Document as constructed in this codebase: id is Optional[str]
(pydantic-validated), page_content a str, metadata a dict. -/
structure Document : Type where
  id : Option String
  page_content : String
  metadata : List (PyVal × PyVal)
deriving Repr

/-- View of a Document as the Python value held in the agent state. -/
def Document.toVal (d : Document) : PyVal :=
  .pydoc d.id d.page_content d.metadata

/-- Pydantic model DocumentPayload from backend/schemas.py: optional id,
page_content, and a JSON-safe metadata dict with str keys. -/
structure DocumentPayload : Type where
  id : Option String
  page_content : String
  metadata : List (String × PyVal)
deriving Repr

/-- Python str(x) for the Optional[str] id attribute of a Document:
str(None) is the 4-letter string None, a str renders verbatim. -/
def strOfOptId : Option String → String
  | some s => s
  | Option.none => "None"

/-- First url-backfill block of from_document: when url is absent, a
candidate metadata.get("source_url") or metadata.get("source") that is a
non-empty string becomes the url entry. -/
def backfill_from_source (metadata : List (String × PyVal)) :
    List (String × PyVal) :=
  if ¬ (strGet metadata "url").isSome then
    let candidate := pyOr (strGetD metadata "source_url")
      (strGetD metadata "source")
    match candidate with
    | .str s => if s ≠ "" then strSet metadata "url" (.str s) else metadata
    | _ => metadata
  else metadata

/-- Second url-backfill block of from_document: when url is still absent,
a candidate metadata.get("file_name") or metadata.get("fileName") that is
a string starting with http becomes the url entry. -/
def backfill_from_file_name (metadata : List (String × PyVal)) :
    List (String × PyVal) :=
  if ¬ (strGet metadata "url").isSome then
    let candidate := pyOr (strGetD metadata "file_name")
      (strGetD metadata "fileName")
    match candidate with
    | .str s =>
        if s.startsWith "http" then strSet metadata "url" (.str s)
        else metadata
    | _ => metadata
  else metadata

/-- DocumentPayload.from_document from backend/schemas.py: sanitizes every
metadata entry under a stringified key, backfills a missing url key first
from source_url or source (kept when a non-empty string) and then from
file_name or fileName (kept when a string starting with http), and sets
id to str(document.id) or None (so a falsy str() result becomes None). -/
def DocumentPayload.from_document (document : Document) : DocumentPayload :=
  let metadata := sanitizeMeta document.metadata
  let metadata := backfill_from_source metadata
  let metadata := backfill_from_file_name metadata
  { id :=
      (let s := strOfOptId document.id
       if s = "" then Option.none else some s),
    page_content := document.page_content,
    metadata := metadata }

/-- The function _deserialize_tool_output from backend/chat_query.py.
Python eval of the trusted serialized string is the parameter evalParse,
with Option.none standing for an exception; strings starting with the
error marker are turned into an empty dict before eval is attempted, a
failed eval also yields an empty dict, and non-string content passes
through unchanged. -/
def deserialize_tool_output (evalParse : String → Option PyVal)
    (raw_content : PyVal) : PyVal :=
  match raw_content with
  | .str s =>
      if s.startsWith "Error invoking tool" then .dict []
      else
        match evalParse s with
        | some v => v
        | Option.none => .dict []
  | v => v

/-- Pydantic construction Document(page_content=..., metadata=..., id=...)
inside _collect_documents: validation accepts a str page_content, a dict
metadata and a None-or-str id, and raises (Option.none) otherwise. -/
def mkDocument (pc md idv : PyVal) : Option PyVal :=
  match pc, md, idv with
  | .str s, .dict es, .none => some (.pydoc Option.none s es)
  | .str s, .dict es, .str i => some (.pydoc (some i) s es)
  | _, _, _ => Option.none

/-- Per-item body of the loop in _collect_documents: a Document is kept
as-is, a dict is turned into a Document (applying the metadata-falsy
default and dropping the item when construction raises), anything else is
skipped. -/
def collect_item : PyVal → Option PyVal
  | .pydoc i pc md => some (.pydoc i pc md)
  | .dict es =>
      let metadata0 := pyGetD es "metadata" (.dict [])
      let metadata := if pyTruthy metadata0 then metadata0 else .dict []
      mkDocument (pyGetD es "page_content" (.str "")) metadata
        (pyGetD es "id" .none)
  | _ => Option.none

/-- The function _collect_documents from backend/chat_query.py: a falsy
candidate yields no documents, a dict is replaced by its documents entry
(default empty list), a non-list candidate yields no documents, and each
list item is converted by collect_item with failures skipped. -/
def collect_documents (candidate : PyVal) : List PyVal :=
  if ¬ pyTruthy candidate then []
  else
    let candidate :=
      match candidate with
      | .dict es => pyGetD es "documents" (.list [])
      | c => c
    match candidate with
    | .list items => items.filterMap collect_item
    | _ => []

/-- Per-document conversion in build_final_response: a Document goes
through DocumentPayload.from_document, a DocumentPayload is kept, a dict
is projected field by field with sanitized metadata, and any other value
is skipped (Option.none). -/
def convert_document : PyVal → Option DocumentPayload
  | .pydoc i pc md => some (DocumentPayload.from_document ⟨i, pc, md⟩)
  | .pypayload i pc md => some ⟨i, pc, md⟩
  | .dict es =>
      let raw_metadata := pyGetD es "metadata" (.dict [])
      let safe_metadata :=
        match raw_metadata with
        | .dict mes => sanitizeMeta mes
        | _ => []
      let idv := pyGetD es "id" .none
      some
        { id := if pyTruthy idv then some (pyStr idv) else Option.none,
          page_content := pyStr (pyGetD es "page_content" (.str "")),
          metadata := safe_metadata }
  | _ => Option.none

/-- Dedupe key of a payload in build_final_response: the Python value
payload.metadata.get("url") or payload.id, stringified when truthy and
absent (Option.none) when falsy. -/
def dedupe_key (payload : DocumentPayload) : Option String :=
  let idVal : PyVal :=
    match payload.id with
    | some s => .str s
    | Option.none => .none
  let keyVal := pyOr (strGetD payload.metadata "url") idVal
  if pyTruthy keyVal then some (pyStr keyVal) else Option.none

/-- Conversion-deduplication loop of build_final_response over the
accumulated document list, carrying the seen-keys set: an item that fails
conversion is skipped, a truthy key already seen drops the payload, a
truthy unseen key is recorded, and a falsy key appends unconditionally. -/
def payload_loop : List PyVal → List String → List DocumentPayload
  | [], _ => []
  | document :: rest, seen =>
      match convert_document document with
      | Option.none => payload_loop rest seen
      | some payload =>
          match dedupe_key payload with
          | some k =>
              if k ∈ seen then payload_loop rest seen
              else payload :: payload_loop rest (k :: seen)
          | Option.none => payload :: payload_loop rest seen

/-- Citation list of build_final_response: the loop started with an empty
seen set. -/
def build_payloads (documents : List PyVal) : List DocumentPayload :=
  payload_loop documents []

/-- Text-extraction branch of build_final_response: a non-empty list whose
first element is a dict containing a text key yields that entry, a plain
string passes through, and everything else becomes str(raw_content). -/
def extract_final_text (raw_content : PyVal) : PyVal :=
  match raw_content with
  | .list (first :: _) =>
      (match first with
       | .dict es =>
           if pyHasKey es "text" then pyGetD es "text" .none
           else .str (pyStr raw_content)
       | _ => .str (pyStr raw_content))
  | .str s => .str s
  | v => .str (pyStr v)

/-- Tool-invocation request attached to an LLM message. -/
structure ToolCall : Type where
  name : String
deriving Repr, DecidableEq

/-- Message in the agent state: isBase records whether the object is a
BaseMessage, isToolMessage whether it is a ToolMessage, name is the tool
name attribute of a ToolMessage, content the message content, and
tool_calls the getattr(message, "tool_calls", None) list (absence of the
attribute is the empty list, which is equally falsy). -/
structure Message : Type where
  isBase : Bool
  isToolMessage : Bool
  name : Option String
  content : PyVal
  tool_calls : List ToolCall
deriving Repr

/-- Structured response UserQueryResponse from backend/schemas.py. The
text_response is kept as a PyVal so that the extraction behaviour on
non-string content stays observable. -/
structure UserQueryResponse : Type where
  text_response : PyVal
  documents : List DocumentPayload
deriving Repr

/-- AgentState from backend/chat_query.py: messages and documents carry
the operator.add reducer annotation, final_response does not. -/
structure AgentState : Type where
  messages : List Message
  final_response : Option UserQueryResponse
  documents : List PyVal
deriving Repr

/-- Partial state update returned by a graph node: messages_add and
documents_add feed the operator.add reducers (a node that omits the key
contributes the empty list), set_final_response overwrites the
final_response field when present. -/
structure StateUpdate : Type where
  messages_add : List Message
  documents_add : List PyVal
  set_final_response : Option UserQueryResponse
deriving Repr

/-- Reducer application of a node update to the agent state, following
the Annotated operator.add fields of AgentState. -/
def applyUpdate (st : AgentState) (u : StateUpdate) : AgentState :=
  { messages := st.messages ++ u.messages_add,
    documents := st.documents ++ u.documents_add,
    final_response :=
      match u.set_final_response with
      | some r => some r
      | Option.none => st.final_response }

/-- The function should_continue from backend/chat_query.py: reads the
last message (Option.none models the IndexError on an empty list), then
returns end when the message is a BaseMessage without truthy tool_calls,
end again when tool_calls is falsy regardless, and continue otherwise. -/
def should_continue (messages : List Message) : Option String :=
  match messages.getLast? with
  | Option.none => Option.none
  | some last_message =>
      if last_message.isBase ∧ last_message.tool_calls.isEmpty then
        some "end"
      else if last_message.tool_calls.isEmpty then some "end"
      else some "continue"

/-- The function call_tools from backend/chat_query.py: the ToolNode
executor is the parameter toolExec; every returned ToolMessage whose name
is rag has its content deserialized and collected into documents, in
order; all tool messages are appended to the message list. -/
def call_tools (toolExec : List Message → List Message)
    (evalParse : String → Option PyVal) (st : AgentState) : StateUpdate :=
  let tool_messages := toolExec st.messages
  let documents := tool_messages.foldl
    (fun docs message =>
      if message.isToolMessage ∧ message.name = some "rag" then
        docs ++ collect_documents
          (deserialize_tool_output evalParse message.content)
      else docs)
    []
  { messages_add := tool_messages,
    documents_add := documents,
    set_final_response := Option.none }

/-- The function build_final_response from backend/chat_query.py: reads
the accumulated documents and the last message content (Option.none
models the IndexError on an empty message list), extracts the final text
and converts the documents into the deduplicated citation list. -/
def build_final_response (st : AgentState) : Option StateUpdate :=
  match st.messages.getLast? with
  | Option.none => Option.none
  | some last =>
      some
        { messages_add := [],
          documents_add := [],
          set_final_response := some
            { text_response := extract_final_text last.content,
              documents := build_payloads st.documents } }

/-- Nodes of the compiled agent graph, terminal END included. -/
inductive Node : Type where
  | agent
  | action
  | builder
  | terminalEnd
deriving Repr, DecidableEq

/-- Node execution: agent invokes the LLM (parameter model) and appends
its reply, action is call_tools, builder is build_final_response, and the
terminal node runs nothing. -/
def runNode (model : List Message → Message)
    (toolExec : List Message → List Message)
    (evalParse : String → Option PyVal) :
    Node → AgentState → Option StateUpdate
  | .agent, st =>
      some { messages_add := [model st.messages],
             documents_add := [],
             set_final_response := Option.none }
  | .action, st => some (call_tools toolExec evalParse st)
  | .builder, st => build_final_response st
  | .terminalEnd, _ => Option.none

/-- Graph wiring from create_agent_graph: conditional edges from agent
through should_continue with the mapping continue to action and end to
builder, a fixed edge from action back to agent, and a fixed edge from
builder to END. -/
def nextNode (st : AgentState) : Node → Option Node
  | .agent =>
      (match should_continue st.messages with
       | some branch =>
           if branch = "continue" then some .action
           else if branch = "end" then some .builder
           else Option.none
       | Option.none => Option.none)
  | .action => some .agent
  | .builder => some .terminalEnd
  | .terminalEnd => Option.none

section HelperLemmas

/-- Unfolding of the sanitizer on lists without the attach scaffolding. -/
lemma to_json_safe_list_eq (xs : List PyVal) :
    to_json_safe (.list xs) = .list (xs.map to_json_safe) := by
  rw [to_json_safe]
  simp [List.attach_map_val]

/-- Unfolding of the sanitizer on tuples without the attach scaffolding. -/
lemma to_json_safe_tuple_eq (xs : List PyVal) :
    to_json_safe (.tuple xs) = .tuple (xs.map to_json_safe) := by
  rw [to_json_safe]
  simp [List.attach_map_val]

/-- Unfolding of the sanitizer on dicts without the attach scaffolding. -/
lemma to_json_safe_dict_eq (es : List (PyVal × PyVal)) :
    to_json_safe (.dict es) = .dict (sanitizeDict es) := by
  rw [to_json_safe, sanitizeDict]
  congr 1
  exact List.foldl_attach es
    (fun acc kv => pyStrKeySet acc (pyStr kv.1) (to_json_safe kv.2)) []

/-- Lookup after assignment on a string-keyed dict finds the new value. -/
lemma strGet_strSet_self (md : List (String × PyVal)) (k : String) (v : PyVal) :
    strGet (strSet md k v) k = some v := by
  induction md with
  | nil => simp [strSet, strGet]
  | cons kv0 rest ih =>
      by_cases h0 : kv0.1 = k
      · simp [strSet, strGet, h0]
      · by_cases hr : rest.any (fun kv => kv.1 = k)
        · have hs : strSet (kv0 :: rest) k v
              = kv0 :: (rest.map (fun kv => if kv.1 = k then (k, v) else kv)) := by
            simp [strSet, h0, hr]
          have hrest : strSet rest k v
              = rest.map (fun kv => if kv.1 = k then (k, v) else kv) := by
            simp [strSet, hr]
          rw [hs]
          rw [hrest] at ih
          simpa [strGet, List.find?_cons, h0] using ih
        · have hs : strSet (kv0 :: rest) k v = kv0 :: (rest ++ [(k, v)]) := by
            simp [strSet, h0, hr]
          have hrest : strSet rest k v = rest ++ [(k, v)] := by
            simp [strSet, hr]
          rw [hs]
          rw [hrest] at ih
          simpa [strGet, List.find?_cons, h0] using ih

end HelperLemmas

/-- Folding document concatenation over a message list equals a flatMap:
bridges the imperative extend loop of call_tools with a declarative
per-message contribution. -/
lemma foldl_if_append {α β : Type} (p : α → Prop) [DecidablePred p]
    (f : α → List β) (l : List α) (acc : List β) :
    l.foldl (fun docs m => if p m then docs ++ f m else docs) acc
      = acc ++ l.flatMap (fun m => if p m then f m else []) := by
  induction l generalizing acc with
  | nil => simp
  | cons m rest ih => by_cases hp : p m <;> simp [hp, ih]

/-- Invariant of the conversion-deduplication loop: the truthy dedupe keys
of the produced payloads are pairwise distinct and avoid the seen set. -/
lemma payload_loop_keys (docs : List PyVal) (seen : List String) :
    ((payload_loop docs seen).filterMap dedupe_key).Nodup ∧
    ∀ k, k ∈ (payload_loop docs seen).filterMap dedupe_key → k ∉ seen := by
  induction docs generalizing seen with
  | nil => simp [payload_loop]
  | cons d rest ih =>
      cases hc : convert_document d with
      | none =>
          have hstep : payload_loop (d :: rest) seen = payload_loop rest seen := by
            simp [payload_loop, hc]
          rw [hstep]
          exact ih seen
      | some payload =>
          cases hk : dedupe_key payload with
          | none =>
              have hstep : payload_loop (d :: rest) seen
                  = payload :: payload_loop rest seen := by
                simp [payload_loop, hc, hk]
              rw [hstep]
              simp only [List.filterMap_cons, hk]
              exact ih seen
          | some k =>
              by_cases hmem : k ∈ seen
              · have hstep : payload_loop (d :: rest) seen = payload_loop rest seen := by
                  simp [payload_loop, hc, hk, hmem]
                rw [hstep]
                exact ih seen
              · have hstep : payload_loop (d :: rest) seen
                    = payload :: payload_loop rest (k :: seen) := by
                  simp [payload_loop, hc, hk, hmem]
                obtain ⟨ihN, ihS⟩ := ih (k :: seen)
                rw [hstep]
                simp only [List.filterMap_cons, hk]
                refine ⟨List.Nodup.cons ?_ ihN, ?_⟩
                · intro hin
                  exact (ihS k hin) (List.mem_cons_self k seen)
                · intro k2 hk2
                  rcases List.mem_cons.mp hk2 with heq | hin
                  · subst heq
                    exact hmem
                  · intro hk2seen
                    exact (ihS k2 hin) (List.mem_cons_of_mem _ hk2seen)

/-- Key of a payload obtained from a Document whose only metadata entry is
a url string: the url itself once it is non-empty. -/
lemma dedupe_key_from_url (i : Option String) (pc u : String) (hu : u ≠ "") :
    dedupe_key (DocumentPayload.from_document ⟨i, pc, [(.str "url", .str u)]⟩)
      = some u := by
  have hm : (DocumentPayload.from_document ⟨i, pc, [(.str "url", .str u)]⟩).metadata
      = [("url", PyVal.str u)] := by
    simp [DocumentPayload.from_document, backfill_from_source,
      backfill_from_file_name, sanitizeMeta, strSet, strGet,
      to_json_safe, pyStr]
  simp [dedupe_key, hm, strGetD, strGet, pyOr, pyTruthy, hu, pyStr]

/-- C1: for every request, the final citation payload list contains no two
entries sharing the same non-empty dedupe key (metadata url when truthy,
else the payload id); three accumulated documents of which two share one
URL and the third carries a distinct URL yield exactly the two payloads of
the first and third document, first occurrences kept. -/
theorem C1_citations_deduplicated_by_url_or_id (st : AgentState) :
    (∀ u r, build_final_response st = some u → u.set_final_response = some r →
       (r.documents.filterMap dedupe_key).Nodup) ∧
    (∀ (id1 id2 id3 : Option String) (pc1 pc2 pc3 u v : String),
       u ≠ "" → v ≠ "" → u ≠ v →
       build_payloads
           [.pydoc id1 pc1 [(.str "url", .str u)],
            .pydoc id2 pc2 [(.str "url", .str u)],
            .pydoc id3 pc3 [(.str "url", .str v)]]
         = [DocumentPayload.from_document ⟨id1, pc1, [(.str "url", .str u)]⟩,
            DocumentPayload.from_document ⟨id3, pc3, [(.str "url", .str v)]⟩] ∧
       (build_payloads
           [.pydoc id1 pc1 [(.str "url", .str u)],
            .pydoc id2 pc2 [(.str "url", .str u)],
            .pydoc id3 pc3 [(.str "url", .str v)]]).length = 2) := by
  constructor
  · intro u r hu hr
    cases hm : st.messages.getLast? with
    | none => simp [build_final_response, hm] at hu
    | some last =>
        simp only [build_final_response, hm] at hu
        cases hu
        simp only [StateUpdate.set_final_response] at hr
        cases hr
        simpa [build_payloads] using (payload_loop_keys st.documents []).1
  · intro id1 id2 id3 pc1 pc2 pc3 u v hu hv huv
    have k1 := dedupe_key_from_url id1 pc1 u hu
    have k2 := dedupe_key_from_url id2 pc2 u hu
    have k3 := dedupe_key_from_url id3 pc3 v hv
    have hvu : ¬ v ∈ [u] := by simp [Ne.symm huv]
    have heq : build_payloads
           [.pydoc id1 pc1 [(.str "url", .str u)],
            .pydoc id2 pc2 [(.str "url", .str u)],
            .pydoc id3 pc3 [(.str "url", .str v)]]
         = [DocumentPayload.from_document ⟨id1, pc1, [(.str "url", .str u)]⟩,
            DocumentPayload.from_document ⟨id3, pc3, [(.str "url", .str v)]⟩] := by
      simp [build_payloads, payload_loop, convert_document, k1, k2, k3, hvu]
      exact Ne.symm huv
    exact ⟨heq, by simp [heq]⟩

/-- Witness for C1 at a concrete request state and a concrete 3-document
accumulation with a duplicated URL. -/
theorem C1_citations_deduplicated_by_url_or_id_witness :
    ((((⟨[], [], some ⟨.str "ans",
         build_payloads [.pydoc (some "a") "p" [(.str "url", .str "http://x")]]⟩⟩ :
           StateUpdate).set_final_response.get rfl).documents.filterMap
             dedupe_key).Nodup) ∧
    (build_payloads
        [.pydoc (some "a") "p1" [(.str "url", .str "http://x")],
         .pydoc (some "b") "p2" [(.str "url", .str "http://x")],
         .pydoc (some "c") "p3" [(.str "url", .str "http://y")]]
      = [DocumentPayload.from_document
           ⟨some "a", "p1", [(.str "url", .str "http://x")]⟩,
         DocumentPayload.from_document
           ⟨some "c", "p3", [(.str "url", .str "http://y")]⟩] ∧
     (build_payloads
        [.pydoc (some "a") "p1" [(.str "url", .str "http://x")],
         .pydoc (some "b") "p2" [(.str "url", .str "http://x")],
         .pydoc (some "c") "p3" [(.str "url", .str "http://y")]]).length = 2) := by
  constructor
  · exact (C1_citations_deduplicated_by_url_or_id
      ⟨[⟨true, false, Option.none, .str "ans", []⟩], Option.none,
        [.pydoc (some "a") "p" [(.str "url", .str "http://x")]]⟩).1
      _ _ rfl rfl
  · exact (C1_citations_deduplicated_by_url_or_id
      ⟨[], Option.none, []⟩).2
      (some "a") (some "b") (some "c") "p1" "p2" "p3" "http://x" "http://y"
      (by decide) (by decide) (by decide)

/-- C2: a tool-output string that starts with the error marker, or that
eval cannot parse, deserializes to the empty dict without raising, and
collecting documents from that result yields zero documents. -/
theorem C2_error_or_unparseable_output_yields_no_documents
    (evalParse : String → Option PyVal) (s : String)
    (h : s.startsWith "Error invoking tool" ∨ evalParse s = Option.none) :
    deserialize_tool_output evalParse (.str s) = .dict [] ∧
    collect_documents (deserialize_tool_output evalParse (.str s)) = [] := by
  have hempty : deserialize_tool_output evalParse (.str s) = .dict [] := by
    rcases h with h | h
    · simp [deserialize_tool_output, h]
    · by_cases hpre : s.startsWith "Error invoking tool" <;>
        simp [deserialize_tool_output, hpre, h]
  refine ⟨hempty, ?_⟩
  rw [hempty]
  simp [collect_documents, pyTruthy]

/-- Witness for C2 at an error-marked string under an eval that also
fails. -/
theorem C2_error_or_unparseable_output_yields_no_documents_witness :
    deserialize_tool_output (fun _ => Option.none)
        (.str "Error invoking tool: boom") = .dict [] ∧
    collect_documents (deserialize_tool_output (fun _ => Option.none)
        (.str "Error invoking tool: boom")) = [] :=
  C2_error_or_unparseable_output_yields_no_documents
    (fun _ => Option.none) "Error invoking tool: boom" (Or.inr rfl)

/-- C3: from the agent node control reaches builder exactly when the last
message carries no tool calls and reaches action otherwise, the action
node always returns to agent, and builder is entered only from agent with
an empty tool-call list on the last message. -/
theorem C3_agent_graph_transition_rule (st : AgentState) :
    (nextNode st .action = some .agent) ∧
    (∀ m, st.messages.getLast? = some m →
       (nextNode st .agent = some .builder ↔ m.tool_calls = [])) ∧
    (∀ m, st.messages.getLast? = some m → m.tool_calls ≠ [] →
       nextNode st .agent = some .action) ∧
    (∀ n, nextNode st n = some .builder →
       n = .agent ∧ ∃ m, st.messages.getLast? = some m ∧ m.tool_calls = []) := by
  refine ⟨rfl, ?_, ?_, ?_⟩
  · intro m hm
    constructor
    · intro hb
      by_cases hempty : m.tool_calls.isEmpty
      · exact List.isEmpty_iff.mp hempty
      · exfalso
        have hact : nextNode st .agent = some .action := by
          simp [nextNode, should_continue, hm, hempty]
        rw [hact] at hb
        exact Node.noConfusion (Option.some.inj hb)
    · intro he
      have hempty : m.tool_calls.isEmpty := by simp [he]
      by_cases hb : m.isBase <;>
        simp [nextNode, should_continue, hm, hempty, hb]
  · intro m hm hne
    have hempty : ¬ m.tool_calls.isEmpty := by
      simp [List.isEmpty_iff, hne]
    simp [nextNode, should_continue, hm, hempty]
  · intro n hn
    cases n with
    | agent =>
        refine ⟨rfl, ?_⟩
        cases hm : st.messages.getLast? with
        | none => simp [nextNode, should_continue, hm] at hn
        | some m =>
            refine ⟨m, rfl, ?_⟩
            by_cases hempty : m.tool_calls.isEmpty
            · exact List.isEmpty_iff.mp hempty
            · exfalso
              simp [nextNode, should_continue, hm, hempty] at hn
    | action => exact absurd hn (by simp [nextNode])
    | builder => exact absurd hn (by simp [nextNode])
    | terminalEnd => exact absurd hn (by simp [nextNode])

/-- Witness for C3 at a one-message state without tool calls and at a
one-message state with a pending rag tool call. -/
theorem C3_agent_graph_transition_rule_witness :
    (nextNode ⟨[⟨true, false, Option.none, .str "hi", []⟩], Option.none, []⟩
        .action = some .agent) ∧
    (nextNode ⟨[⟨true, false, Option.none, .str "hi", []⟩], Option.none, []⟩
        .agent = some .builder) ∧
    (nextNode ⟨[⟨true, false, Option.none, .str "hi", [⟨"rag"⟩]⟩],
        Option.none, []⟩ .agent = some .action) := by
  refine ⟨(C3_agent_graph_transition_rule _).1, ?_, ?_⟩
  · exact ((C3_agent_graph_transition_rule
      ⟨[⟨true, false, Option.none, .str "hi", []⟩], Option.none, []⟩).2.1
        ⟨true, false, Option.none, .str "hi", []⟩ rfl).mpr rfl
  · exact (C3_agent_graph_transition_rule
      ⟨[⟨true, false, Option.none, .str "hi", [⟨"rag"⟩]⟩], Option.none,
        []⟩).2.2.1
      ⟨true, false, Option.none, .str "hi", [⟨"rag"⟩]⟩ rfl
      (by simp)

/-- C4: when the final LLM message content is a list of content blocks
whose first block carries a text field, the final text answer is that
field's value; when the content is a plain string, the answer is that
string verbatim. -/
theorem C4_final_text_extraction (st : AgentState) :
    (∀ m es rest, st.messages.getLast? = some m →
       m.content = .list (.dict es :: rest) → pyHasKey es "text" →
       build_final_response st = some
         { messages_add := [], documents_add := [],
           set_final_response := some
             { text_response := pyGetD es "text" .none,
               documents := build_payloads st.documents } }) ∧
    (∀ m s, st.messages.getLast? = some m → m.content = .str s →
       build_final_response st = some
         { messages_add := [], documents_add := [],
           set_final_response := some
             { text_response := .str s,
               documents := build_payloads st.documents } }) := by
  constructor
  · intro m es rest hm hc htext
    simp [build_final_response, hm, extract_final_text, hc, htext]
  · intro m s hm hc
    simp [build_final_response, hm, extract_final_text, hc]

/-- Witness for C4 at a one-message state whose content is a single text
block. -/
theorem C4_final_text_extraction_witness :
    build_final_response
        ⟨[⟨true, false, Option.none,
            .list [.dict [(.str "text", .str "hello")]], []⟩], Option.none, []⟩
      = some
        { messages_add := [], documents_add := [],
          set_final_response := some
            { text_response := pyGetD [(.str "text", .str "hello")] "text" .none,
              documents := build_payloads [] } } :=
  (C4_final_text_extraction _).1 _ [(.str "text", .str "hello")] [] rfl rfl
    (by decide)

/-- C5: only the action node contributes documents, its contribution is
exactly the documents deserialized from rag-attributed tool messages in
order, non-rag tool results contribute nothing, and every node update
extends the accumulated document list by pure appending (no removal or
reordering). -/
theorem C5_documents_only_grow_via_action
    (model : List Message → Message)
    (toolExec : List Message → List Message)
    (evalParse : String → Option PyVal)
    (n : Node) (st : AgentState) (u : StateUpdate)
    (hrun : runNode model toolExec evalParse n st = some u) :
    (applyUpdate st u).documents = st.documents ++ u.documents_add ∧
    (n ≠ .action → u.documents_add = []) ∧
    (n = .action → u.documents_add =
      (toolExec st.messages).flatMap (fun message =>
        if message.isToolMessage ∧ message.name = some "rag" then
          collect_documents (deserialize_tool_output evalParse message.content)
        else [])) ∧
    (n = .action →
      (∀ message ∈ toolExec st.messages,
        ¬ (message.isToolMessage ∧ message.name = some "rag")) →
      u.documents_add = []) := by
  have hact : ∀ hu : u = call_tools toolExec evalParse st,
      u.documents_add =
        (toolExec st.messages).flatMap (fun message =>
          if message.isToolMessage ∧ message.name = some "rag" then
            collect_documents (deserialize_tool_output evalParse message.content)
          else []) := by
    intro hu
    subst hu
    simp only [call_tools]
    exact foldl_if_append
      (fun message => message.isToolMessage ∧ message.name = some "rag")
      (fun message =>
        collect_documents (deserialize_tool_output evalParse message.content))
      (toolExec st.messages) []
  cases n with
  | agent =>
      simp only [runNode] at hrun
      cases hrun
      exact ⟨rfl, fun _ => rfl, fun h => Node.noConfusion h,
        fun h => Node.noConfusion h⟩
  | action =>
      simp only [runNode] at hrun
      cases hrun
      refine ⟨rfl, fun h => absurd rfl h, fun _ => hact rfl, ?_⟩
      intro _ hnone
      rw [hact rfl]
      apply List.flatMap_eq_nil_iff.mpr
      intro message hmsg
      simp [hnone message hmsg]
  | builder =>
      simp only [runNode] at hrun
      cases hb : build_final_response st with
      | none => rw [hb] at hrun; cases hrun
      | some u0 =>
          rw [hb] at hrun
          cases hrun
          cases hm : st.messages.getLast? with
          | none => simp [build_final_response, hm] at hb
          | some last =>
              simp only [build_final_response, hm] at hb
              cases hb
              exact ⟨rfl, fun _ => rfl, fun h => Node.noConfusion h,
                fun h => Node.noConfusion h⟩
  | terminalEnd => simp only [runNode] at hrun; cases hrun

/-- Witness for C5 at the action node with one rag tool message carrying
an unparseable payload. -/
theorem C5_documents_only_grow_via_action_witness :
    ((applyUpdate ⟨[], Option.none, []⟩
        (call_tools
          (fun _ => [⟨true, true, some "rag", .str "x", []⟩])
          (fun _ => Option.none) ⟨[], Option.none, []⟩)).documents
      = [] ++ (call_tools
          (fun _ => [⟨true, true, some "rag", .str "x", []⟩])
          (fun _ => Option.none) ⟨[], Option.none, []⟩).documents_add) ∧
    ((call_tools
        (fun _ => [⟨true, true, some "rag", .str "x", []⟩])
        (fun _ => Option.none) ⟨[], Option.none, []⟩).documents_add
      = ([⟨true, true, some "rag", .str "x", []⟩] :
          List Message).flatMap (fun message =>
            if message.isToolMessage ∧ message.name = some "rag" then
              collect_documents (deserialize_tool_output
                (fun _ => Option.none) message.content)
            else [])) := by
  have h := C5_documents_only_grow_via_action
    (fun _ => ⟨true, false, Option.none, .str "m", []⟩)
    (fun _ => [⟨true, true, some "rag", .str "x", []⟩])
    (fun _ => Option.none)
    .action ⟨[], Option.none, []⟩
    (call_tools (fun _ => [⟨true, true, some "rag", .str "x", []⟩])
      (fun _ => Option.none) ⟨[], Option.none, []⟩) rfl
  exact ⟨h.1, h.2.2.1 rfl⟩

/-- C6: the JSON-safe projection maps datetime, date and time values to
their iso string, recursively sanitizes lists, tuples and dicts
(stringifying dict keys), leaves str, int, float, bool and None unchanged,
and stringifies every other value. -/
theorem C6_json_safe_projection :
    (∀ iso, to_json_safe (.datetime iso) = .str iso) ∧
    (∀ iso, to_json_safe (.date iso) = .str iso) ∧
    (∀ iso, to_json_safe (.time iso) = .str iso) ∧
    (∀ xs, to_json_safe (.list xs) = .list (xs.map to_json_safe)) ∧
    (∀ xs, to_json_safe (.tuple xs) = .tuple (xs.map to_json_safe)) ∧
    (∀ es, to_json_safe (.dict es) = .dict (sanitizeDict es)) ∧
    (∀ s, to_json_safe (.str s) = .str s) ∧
    (∀ n, to_json_safe (.int n) = .int n) ∧
    (∀ c, to_json_safe (.float c) = .float c) ∧
    (∀ b, to_json_safe (.bool b) = .bool b) ∧
    (to_json_safe .none = .none) ∧
    (∀ i pc md, to_json_safe (.pydoc i pc md) = .str (pyStr (.pydoc i pc md))) ∧
    (∀ i pc md,
      to_json_safe (.pypayload i pc md) = .str (pyStr (.pypayload i pc md))) ∧
    (∀ c, to_json_safe (.obj c) = .str (pyStr (.obj c))) :=
  ⟨fun _ => by simp [to_json_safe],
   fun _ => by simp [to_json_safe],
   fun _ => by simp [to_json_safe],
   to_json_safe_list_eq,
   to_json_safe_tuple_eq,
   to_json_safe_dict_eq,
   fun _ => by simp [to_json_safe],
   fun _ => by simp [to_json_safe],
   fun _ => by simp [to_json_safe],
   fun _ => by simp [to_json_safe],
   by simp [to_json_safe],
   fun _ _ _ => by simp [to_json_safe],
   fun _ _ _ => by simp [to_json_safe],
   fun _ => by simp [to_json_safe]⟩

/-- C7: in document collection and in citation-payload conversion, a
per-item failure drops only that item, every other item is still
converted, and finalization always produces a result once a last message
exists. -/
theorem C7_per_item_failures_dropped_individually :
    (∀ (xs ys : List PyVal) (bad : PyVal), collect_item bad = Option.none →
       collect_documents (.list (xs ++ bad :: ys))
         = collect_documents (.list (xs ++ ys))) ∧
    (∀ (xs ys : List PyVal) (bad : PyVal) (seen : List String),
       convert_document bad = Option.none →
       payload_loop (xs ++ bad :: ys) seen = payload_loop (xs ++ ys) seen) ∧
    (∀ st : AgentState, st.messages ≠ [] →
       (build_final_response st).isSome) := by
  refine ⟨?_, ?_, ?_⟩
  · intro xs ys bad hbad
    have hlhs : collect_documents (.list (xs ++ bad :: ys))
        = xs.filterMap collect_item ++ ys.filterMap collect_item := by
      simp [collect_documents, pyTruthy, List.filterMap_append,
        List.filterMap_cons, hbad]
    by_cases he : xs ++ ys = []
    · rcases List.append_eq_nil.mp he with ⟨hx, hy⟩
      subst hx
      subst hy
      simpa [collect_documents, pyTruthy] using hlhs
    · have hrhs : collect_documents (.list (xs ++ ys))
          = xs.filterMap collect_item ++ ys.filterMap collect_item := by
        simp [collect_documents, pyTruthy, List.filterMap_append,
          List.isEmpty_iff, he]
      rw [hlhs, hrhs]
  · intro xs ys bad seen hbad
    induction xs generalizing seen with
    | nil => simp [payload_loop, hbad]
    | cons x xs ih =>
        cases hc : convert_document x with
        | none => simp [payload_loop, hc, ih]
        | some payload =>
            cases hk : dedupe_key payload with
            | none => simp [payload_loop, hc, hk, ih]
            | some k =>
                by_cases hmem : k ∈ seen <;>
                  simp [payload_loop, hc, hk, hmem, ih]
  · intro st hne
    cases hm : st.messages.getLast? with
    | none =>
        have hsome := List.getLast?_isSome.mpr hne
        rw [hm] at hsome
        simp at hsome
    | some last => simp [build_final_response, hm]

/-- Witness for C7 dropping a non-convertible string item in both loops
and finalizing a one-message state. -/
theorem C7_per_item_failures_dropped_individually_witness :
    collect_documents (.list ([.pydoc (some "a") "p" []] ++ .str "junk" ::
        [.pydoc (some "b") "q" []]))
      = collect_documents (.list ([.pydoc (some "a") "p" []] ++
        [.pydoc (some "b") "q" []])) ∧
    payload_loop ([.pydoc (some "a") "p" []] ++ .str "junk" ::
        [.pydoc (some "b") "q" []]) []
      = payload_loop ([.pydoc (some "a") "p" []] ++
        [.pydoc (some "b") "q" []]) [] ∧
    (build_final_response
        ⟨[⟨true, false, Option.none, .str "hi", []⟩], Option.none,
          []⟩).isSome := by
  refine ⟨?_, ?_, ?_⟩
  · exact C7_per_item_failures_dropped_individually.1
      [.pydoc (some "a") "p" []] [.pydoc (some "b") "q" []] (.str "junk") rfl
  · exact C7_per_item_failures_dropped_individually.2.1
      [.pydoc (some "a") "p" []] [.pydoc (some "b") "q" []] (.str "junk") []
      rfl
  · exact C7_per_item_failures_dropped_individually.2.2
      ⟨[⟨true, false, Option.none, .str "hi", []⟩], Option.none, []⟩
      (List.cons_ne_nil _ _)


/-- Source backfill block sets the url entry when the or-candidate is a
non-empty string and url is absent. -/
lemma backfill_from_source_sets (md : List (String × PyVal)) (s : String)
    (hurl : strGet md "url" = Option.none)
    (hor : pyOr (strGetD md "source_url") (strGetD md "source") = .str s)
    (hs : s ≠ "") :
    backfill_from_source md = strSet md "url" (.str s) := by
  simp [backfill_from_source, hurl, hor, hs]

/-- Source backfill block is the identity when every string candidate is
empty. -/
lemma backfill_from_source_skip (md : List (String × PyVal))
    (hfirst : ∀ t, pyOr (strGetD md "source_url") (strGetD md "source")
        = .str t → t = "") :
    backfill_from_source md = md := by
  by_cases hurl : (strGet md "url").isSome
  · simp [backfill_from_source, hurl]
  · cases hc : pyOr (strGetD md "source_url") (strGetD md "source")
    next t =>
      have ht := hfirst t hc
      subst ht
      simp [backfill_from_source, hurl, hc]
    all_goals simp [backfill_from_source, hurl, hc]

/-- File-name backfill block sets the url entry when the or-candidate is a
string starting with http and url is absent. -/
lemma backfill_from_file_name_sets (md : List (String × PyVal)) (s : String)
    (hurl : strGet md "url" = Option.none)
    (hor : pyOr (strGetD md "file_name") (strGetD md "fileName") = .str s)
    (hs : s.startsWith "http") :
    backfill_from_file_name md = strSet md "url" (.str s) := by
  simp [backfill_from_file_name, hurl, hor, hs]

/-- File-name backfill block keeps a metadata dict that already carries a
url entry. -/
lemma backfill_from_file_name_keeps_url (md : List (String × PyVal))
    (hurl : (strGet md "url").isSome) :
    backfill_from_file_name md = md := by
  simp [backfill_from_file_name, hurl]

/-- C8: from_document backfills a missing url metadata key from the
source_url or source value when that value is a non-empty string,
otherwise from the file_name or fileName value when that is a string
starting with http; the backfilled url then serves as the citation dedupe
key. -/
theorem C8_from_document_backfills_url (d : Document) :
    (∀ s, strGet (sanitizeMeta d.metadata) "url" = Option.none →
       strGetD (sanitizeMeta d.metadata) "source_url" = .str s → s ≠ "" →
       strGet (DocumentPayload.from_document d).metadata "url"
           = some (.str s) ∧
       dedupe_key (DocumentPayload.from_document d) = some s) ∧
    (∀ s, strGet (sanitizeMeta d.metadata) "url" = Option.none →
       pyTruthy (strGetD (sanitizeMeta d.metadata) "source_url") = false →
       strGetD (sanitizeMeta d.metadata) "source" = .str s → s ≠ "" →
       strGet (DocumentPayload.from_document d).metadata "url"
         = some (.str s)) ∧
    (∀ s, strGet (sanitizeMeta d.metadata) "url" = Option.none →
       (∀ t, pyOr (strGetD (sanitizeMeta d.metadata) "source_url")
           (strGetD (sanitizeMeta d.metadata) "source") = .str t → t = "") →
       strGetD (sanitizeMeta d.metadata) "file_name" = .str s →
       s.startsWith "http" →
       strGet (DocumentPayload.from_document d).metadata "url"
         = some (.str s)) ∧
    (∀ s, strGet (sanitizeMeta d.metadata) "url" = Option.none →
       (∀ t, pyOr (strGetD (sanitizeMeta d.metadata) "source_url")
           (strGetD (sanitizeMeta d.metadata) "source") = .str t → t = "") →
       pyTruthy (strGetD (sanitizeMeta d.metadata) "file_name") = false →
       strGetD (sanitizeMeta d.metadata) "fileName" = .str s →
       s.startsWith "http" →
       strGet (DocumentPayload.from_document d).metadata "url"
         = some (.str s)) := by
  have hproj : (DocumentPayload.from_document d).metadata
      = backfill_from_file_name
          (backfill_from_source (sanitizeMeta d.metadata)) := rfl
  refine ⟨?_, ?_, ?_, ?_⟩
  · intro s hurl hsu hs
    have hor : pyOr (strGetD (sanitizeMeta d.metadata) "source_url")
        (strGetD (sanitizeMeta d.metadata) "source") = .str s := by
      simp [pyOr, hsu, pyTruthy, hs]
    have hmeta : (DocumentPayload.from_document d).metadata
        = strSet (sanitizeMeta d.metadata) "url" (.str s) := by
      rw [hproj, backfill_from_source_sets _ s hurl hor hs,
        backfill_from_file_name_keeps_url _ (by simp [strGet_strSet_self])]
    refine ⟨by rw [hmeta]; exact strGet_strSet_self _ _ _, ?_⟩
    simp [dedupe_key, hmeta, strGetD, strGet_strSet_self, pyOr, pyTruthy,
      hs, pyStr]
  · intro s hurl hsu hso hs
    have hor : pyOr (strGetD (sanitizeMeta d.metadata) "source_url")
        (strGetD (sanitizeMeta d.metadata) "source") = .str s := by
      simp only [pyOr, hsu]
      simp [hso]
    have hmeta : (DocumentPayload.from_document d).metadata
        = strSet (sanitizeMeta d.metadata) "url" (.str s) := by
      rw [hproj, backfill_from_source_sets _ s hurl hor hs,
        backfill_from_file_name_keeps_url _ (by simp [strGet_strSet_self])]
    rw [hmeta]
    exact strGet_strSet_self _ _ _
  · intro s hurl hfirst hfn hs
    have hsne : s ≠ "" := by
      intro he
      subst he
      exact absurd hs (by decide)
    have hor : pyOr (strGetD (sanitizeMeta d.metadata) "file_name")
        (strGetD (sanitizeMeta d.metadata) "fileName") = .str s := by
      simp [pyOr, hfn, pyTruthy, hsne]
    have hmeta : (DocumentPayload.from_document d).metadata
        = strSet (sanitizeMeta d.metadata) "url" (.str s) := by
      rw [hproj, backfill_from_source_skip _ hfirst,
        backfill_from_file_name_sets _ s hurl hor hs]
    rw [hmeta]
    exact strGet_strSet_self _ _ _
  · intro s hurl hfirst hfn hfn2 hs
    have hor : pyOr (strGetD (sanitizeMeta d.metadata) "file_name")
        (strGetD (sanitizeMeta d.metadata) "fileName") = .str s := by
      simp only [pyOr, hfn]
      simp [hfn2]
    have hmeta : (DocumentPayload.from_document d).metadata
        = strSet (sanitizeMeta d.metadata) "url" (.str s) := by
      rw [hproj, backfill_from_source_skip _ hfirst,
        backfill_from_file_name_sets _ s hurl hor hs]
    rw [hmeta]
    exact strGet_strSet_self _ _ _

/-- Witness for C8 at a document whose metadata carries only a source
entry. -/
theorem C8_from_document_backfills_url_witness :
    strGet (DocumentPayload.from_document
        ⟨some "a", "p", [(.str "source_url", .str "s3://f")]⟩).metadata "url"
      = some (.str "s3://f") ∧
    dedupe_key (DocumentPayload.from_document
        ⟨some "a", "p", [(.str "source_url", .str "s3://f")]⟩)
      = some "s3://f" :=
  (C8_from_document_backfills_url
      ⟨some "a", "p", [(.str "source_url", .str "s3://f")]⟩).1
    "s3://f" (by simp [sanitizeMeta, to_json_safe, pyStr, strSet, strGet])
    (by simp [sanitizeMeta, to_json_safe, pyStr, strSet, strGetD, strGet])
    (by decide)

/-- C9: a payload whose dedupe key is falsy (no truthy url and a None id)
is appended unconditionally, so two identical keyless documents each
produce their own citation entry. -/
theorem C9_falsy_key_payloads_never_deduplicated :
    (∀ d docs seen p, convert_document d = some p →
       dedupe_key p = Option.none →
       payload_loop (d :: docs) seen = p :: payload_loop docs seen) ∧
    (∀ d p, convert_document d = some p → dedupe_key p = Option.none →
       build_payloads [d, d] = [p, p]) := by
  constructor
  · intro d docs seen p hc hk
    simp [payload_loop, hc, hk]
  · intro d p hc hk
    simp [build_payloads, payload_loop, hc, hk]

/-- Witness for C9 at the empty dict document, whose payload has id None
and empty metadata. -/
theorem C9_falsy_key_payloads_never_deduplicated_witness :
    payload_loop [.dict [], .str "x"] ["k"]
      = (⟨Option.none, "", []⟩ : DocumentPayload)
          :: payload_loop [.str "x"] ["k"] ∧
    build_payloads [.dict [], .dict []]
      = [(⟨Option.none, "", []⟩ : DocumentPayload),
         ⟨Option.none, "", []⟩] := by
  constructor
  · exact C9_falsy_key_payloads_never_deduplicated.1
      (.dict []) [.str "x"] ["k"] ⟨Option.none, "", []⟩ rfl rfl
  · exact C9_falsy_key_payloads_never_deduplicated.2
      (.dict []) ⟨Option.none, "", []⟩ rfl rfl

/-- Key-None payloads stay deduplicated away once None is in the seen
set: auxiliary loop fact for C10. -/
lemma payload_loop_none_id_skips (ds : List Document) (seen : List String)
    (hseen : "None" ∈ seen)
    (hds : ∀ d2 ∈ ds, d2.id = Option.none ∧
      pyTruthy (strGetD (DocumentPayload.from_document d2).metadata "url")
        = false) :
    payload_loop (ds.map Document.toVal) seen = [] := by
  induction ds with
  | nil => simp [payload_loop]
  | cons d2 ds ih =>
      obtain ⟨hid, hurl⟩ := hds d2 (List.mem_cons_self d2 ds)
      have hc : convert_document d2.toVal
          = some (DocumentPayload.from_document d2) := by
        simp [Document.toVal, convert_document]
      have hidp : (DocumentPayload.from_document d2).id = some "None" := by
        simp [DocumentPayload.from_document, hid, strOfOptId]
      have hk : dedupe_key (DocumentPayload.from_document d2)
          = some "None" := by
        simp only [dedupe_key, hidp, pyOr, hurl]
        simp [pyTruthy, pyStr]
      simp only [List.map_cons, payload_loop, hc, hk, hseen, if_pos]
      exact ih (fun d3 h3 => hds d3 (List.mem_cons_of_mem _ h3))

/-- C10: from_document turns a None document id into the string id None
(truthy), so every such document without a truthy url carries dedupe key
None and only the first of them survives into the citation list. -/
theorem C10_none_id_becomes_string_None (d : Document) :
    (d.id = Option.none → (DocumentPayload.from_document d).id
        = some "None") ∧
    (d.id = Option.none →
      pyTruthy (strGetD (DocumentPayload.from_document d).metadata "url")
        = false →
      dedupe_key (DocumentPayload.from_document d) = some "None") ∧
    (∀ ds : List Document, d.id = Option.none →
      pyTruthy (strGetD (DocumentPayload.from_document d).metadata "url")
        = false →
      (∀ d2 ∈ ds, d2.id = Option.none ∧
        pyTruthy (strGetD (DocumentPayload.from_document d2).metadata "url")
          = false) →
      build_payloads ((d :: ds).map Document.toVal)
        = [DocumentPayload.from_document d]) := by
  have hid : d.id = Option.none → (DocumentPayload.from_document d).id
      = some "None" := by
    intro h
    simp [DocumentPayload.from_document, h, strOfOptId]
  have hkey : d.id = Option.none →
      pyTruthy (strGetD (DocumentPayload.from_document d).metadata "url")
        = false →
      dedupe_key (DocumentPayload.from_document d) = some "None" := by
    intro h hurl
    simp only [dedupe_key, hid h, pyOr, hurl]
    simp [pyTruthy, pyStr]
  refine ⟨hid, hkey, ?_⟩
  intro ds h hurl hds
  have hc : convert_document d.toVal
      = some (DocumentPayload.from_document d) := by
    simp [Document.toVal, convert_document]
  simp only [build_payloads, List.map_cons, payload_loop, hc, hkey h hurl]
  simp only [List.not_mem_nil, if_neg, not_false_eq_true]
  rw [payload_loop_none_id_skips ds ["None"] (by simp) hds]

/-- Witness for C10 at two id-less documents with empty metadata. -/
theorem C10_none_id_becomes_string_None_witness :
    (DocumentPayload.from_document
        (⟨Option.none, "p", []⟩ : Document)).id = some "None" ∧
    build_payloads (([⟨Option.none, "p", []⟩, ⟨Option.none, "q", []⟩] :
        List Document).map Document.toVal)
      = [DocumentPayload.from_document
          (⟨Option.none, "p", []⟩ : Document)] := by
  constructor
  · exact (C10_none_id_becomes_string_None ⟨Option.none, "p", []⟩).1 rfl
  · exact (C10_none_id_becomes_string_None ⟨Option.none, "p", []⟩).2.2
      [⟨Option.none, "q", []⟩] rfl (by rfl)
      (by
        intro d2 h2
        simp only [List.mem_singleton] at h2
        subst h2
        exact ⟨rfl, by rfl⟩)
